import Mathlib

/-!
Verification of the credit-insight session/settings persistence layer.

Shallow embedding of the repository's core data layer:
- `src/services/db.ts` (migrateSessionData, importDatabase, syncFromServer),
- `src/services/aiService.ts` (the result-mapping stages of
  extractAndBenchmark and rebenchmarkTerms),
- `src/App.tsx` (handleRebenchmarkSessions and the benchmark-map update),
- `src/components` BenchmarkManager (handleDeleteProfile) and
  AnalysisView (handleAnalyze).

External collaborators (the JSON.parse builtin, the Date constructor's
string parsing, the fetch channel and the LLM calls) are modelled as
explicit parameters or as inductive summaries of their observable
outcomes, exactly at the granularity the embedded code distinguishes.
JavaScript runtime values that the TypeScript annotations do not
constrain at runtime (the `variance` field of a raw LLM record, which
may be undefined, null or an arbitrary string) are modelled by a
dedicated inductive type.
-/

namespace CreditInsight

/-- Generic upsert on a list keyed by `key`: mirrors both the semantics of a
JavaScript object spread that overwrites one computed key (the value of an
existing key is replaced in place, a fresh key is appended at the end) and
the semantics of an IndexedDB `store.put` with a key path. -/
def upsertBy {α : Type} (key : α → String) (x : α) (l : List α) : List α :=
  if l.any (fun y => key y = key x) then
    l.map (fun y => if key y = key x then x else y)
  else
    l ++ [x]

/-- Raw temporal value as it can appear in a persisted or in-memory record:
a serialized string, a numeric timestamp, or an already-constructed Date
(epoch milliseconds). -/
inductive RawDate : Type
  | fromStr (s : String)
  | fromNum (n : Int)
  | fromDate (t : Int)
deriving DecidableEq, Repr

/-- The JavaScript `new Date(x)` conversion. String parsing is a host
builtin, supplied as the parameter `pd`; a numeric timestamp or an existing
Date converts to its epoch value. -/
def newDate (pd : String → Int) : RawDate → Int
  | RawDate.fromStr s => pd s
  | RawDate.fromNum n => n
  | RawDate.fromDate t => t

/-- StandardTerm from `src/types.ts`. -/
structure StandardTerm : Type where
  id : String
  name : String
  description : Option String
  category : String
deriving DecidableEq, Repr

/-- ExtractionResult from `src/types.ts`. -/
structure ExtractionResult : Type where
  term : String
  value : String
  sourceSection : String
  evidence : String
  confidence : String
deriving DecidableEq, Repr

/-- Runtime value of the `variance` field of a raw LLM record. The
TypeScript annotation declares a closed enum, but the value arrives from
`JSON.parse` and may be undefined (field absent), null, or any string. -/
inductive RawVariance : Type
  | undef
  | null
  | str (s : String)
deriving DecidableEq, Repr

/-- BenchmarkResult from `src/types.ts`, with the `variance` field kept at
its runtime type (see `RawVariance`): the declared enum is not enforced at
runtime, and the claims under audit are precisely about which runtime
values can be stored. -/
structure BenchmarkResult : Type where
  term : String
  extractedValue : String
  benchmarkValue : String
  variance : RawVariance
  commentary : String
deriving DecidableEq, Repr

/-- WebFinancialData from `src/types.ts`. -/
structure WebFinancialData : Type where
  metric : String
  value : String
  period : String
  source : String
deriving DecidableEq, Repr

/-- The `webFinancials` snapshot of a session. `migrateSessionData` does not
touch it, so its `lastUpdated` field may still be raw after migration; only
`importDatabase` normalizes it. -/
structure WebFinancials : Type where
  data : List WebFinancialData
  sourceUrls : List String
  lastUpdated : RawDate
deriving DecidableEq, Repr

/-- ChatMessage from `src/types.ts` in current (in-memory) shape: the
timestamp is a Date (epoch milliseconds). -/
structure ChatMessage : Type where
  id : String
  role : String
  text : String
  timestamp : Int
  isError : Option Bool
deriving DecidableEq, Repr

/-- A chat message as read from a raw persisted record: the timestamp may
still be serialized. -/
structure RawChatMessage : Type where
  id : String
  role : String
  text : String
  timestamp : RawDate
  isError : Option Bool
deriving DecidableEq, Repr

/-- UploadedFile from `src/types.ts`. -/
structure UploadedFile : Type where
  name : String
  type : String
  data : String
  size : Nat
deriving DecidableEq, Repr

/-- The profile-keyed benchmark map of a current-schema session: an
insertion-ordered mapping from profile id to a result list, as a
JavaScript object is. -/
def BenchMap : Type := List (String × List BenchmarkResult)

instance : DecidableEq BenchMap :=
  inferInstanceAs (DecidableEq (List (String × List BenchmarkResult)))

instance : Repr BenchMap :=
  inferInstanceAs (Repr (List (String × List BenchmarkResult)))

/-- The `benchmarkResults` field of a raw persisted session record, in any
of its historical shapes: a flat list (pre-multi-profile schema), a
profile-keyed mapping (current schema), or absent/null. -/
inductive RawBench : Type
  | rbList (l : List BenchmarkResult)
  | rbMap (m : List (String × List BenchmarkResult))
  | rbNone
deriving DecidableEq, Repr

/-- DealSession in current in-memory shape (`src/types.ts`, current
version): `benchmarkResults` is the profile-keyed map, timestamps are
Dates. -/
structure DealSession : Type where
  id : String
  borrowerName : String
  file : UploadedFile
  extractionResults : List ExtractionResult
  benchmarkResults : BenchMap
  webFinancials : Option WebFinancials
  chatHistory : List ChatMessage
  lastModified : Int
deriving DecidableEq, Repr

/-- A raw session record as handed to `migrateSessionData`: any historical
shape, with optional collection fields and serialized timestamps. -/
structure RawSession : Type where
  id : String
  borrowerName : String
  file : UploadedFile
  extractionResults : List ExtractionResult
  benchmarkResults : RawBench
  webFinancials : Option WebFinancials
  chatHistory : Option (List RawChatMessage)
  lastModified : RawDate
deriving DecidableEq, Repr

/-- MARKET_BENCHMARK from `src/constants.ts`, as the insertion-ordered
key/value list of the source object literal. -/
def MARKET_BENCHMARK : List (String × String) :=
  [("Max Total Net Leverage", "4.50x"),
   ("Min Interest Coverage", "2.50x"),
   ("General RP Basket", "$25,000,000"),
   ("Available Amount / Builder Basket", "50% of CNI (Cumulative)"),
   ("Limitation on Indebtedness", "Permitted Refinancing + Ratio Debt allowed if < Opening Leverage"),
   ("EBITDA Definition", "Standard add-backs capped at 20% of EBITDA"),
   ("Events of Default", "Customary, with Cross-Default > $10M"),
   ("Governing Law", "New York"),
   ("Starter Basket Amount", "$10,000,000")]

/-- BenchmarkProfile: `(id, name, data)` where data maps term name to
benchmark value. -/
structure BenchmarkProfile : Type where
  id : String
  name : String
  data : List (String × String)
deriving DecidableEq, Repr

/-- JavaScript object spread of `overrides` on top of `base`: each override
replaces the value of an existing key in place or is appended. -/
def spreadUpdate (base : List (String × String)) (overrides : List (String × String)) :
    List (String × String) :=
  overrides.foldl (fun acc kv => upsertBy Prod.fst kv acc) base

/-- DEFAULT_BENCHMARK_PROFILES from `src/constants.ts`. -/
def DEFAULT_BENCHMARK_PROFILES : List BenchmarkProfile :=
  [{ id := "us_large_cap", name := "US Large Cap (Standard)", data := MARKET_BENCHMARK },
   { id := "us_middle_market", name := "US Middle Market",
     data := spreadUpdate MARKET_BENCHMARK
       [("Max Total Net Leverage", "3.50x"),
        ("Min Interest Coverage", "3.00x"),
        ("General RP Basket", "$5,000,000"),
        ("Starter Basket Amount", "$0"),
        ("Events of Default", "Tightened cure periods")] },
   { id := "canada_standard", name := "Canada Standard",
     data := spreadUpdate MARKET_BENCHMARK
       [("Governing Law", "Ontario / Canadian Federal"),
        ("Max Total Net Leverage", "4.00x"),
        ("General RP Basket", "CAD $10,000,000"),
        ("Starter Basket Amount", "CAD $5,000,000")] }]

/-- The well-known default profile id, `DEFAULT_BENCHMARK_PROFILES[0].id`
as read at the top of `migrateSessionData`. -/
def defaultProfileId : String :=
  ((DEFAULT_BENCHMARK_PROFILES.head?).map (fun p => p.id)).getD ""

/-- Cook a raw chat message: the object spread plus timestamp conversion
performed inside `migrateSessionData`. -/
def migrateChatMessage (pd : String → Int) (m : RawChatMessage) : ChatMessage :=
  { id := m.id, role := m.role, text := m.text,
    timestamp := newDate pd m.timestamp, isError := m.isError }

/-- migrateSessionData from `src/services/db.ts` (lines 71-91): wraps a
flat legacy `benchmarkResults` list under the default profile id, defaults
a missing/null `benchmarkResults` to the empty map and a missing
`chatHistory` to the empty list, and normalizes the timestamps of
`lastModified` and of every chat message. All other fields are carried over
by the object spread. -/
def migrateSessionData (pd : String → Int) (s : RawSession) : DealSession :=
  let migratedBenchmarks : BenchMap :=
    match s.benchmarkResults with
    | RawBench.rbList l => [(defaultProfileId, l)]
    | RawBench.rbMap m => m
    | RawBench.rbNone => []
  { id := s.id,
    borrowerName := s.borrowerName,
    file := s.file,
    extractionResults := s.extractionResults,
    benchmarkResults := migratedBenchmarks,
    webFinancials := s.webFinancials,
    chatHistory := (s.chatHistory.getD []).map (migrateChatMessage pd),
    lastModified := newDate pd s.lastModified }

/-- View a current-shape session as a raw record, so that the migration
function (whose JavaScript original is typed `any -> DealSession`) can be
re-applied to its own output. -/
def toRaw (d : DealSession) : RawSession :=
  { id := d.id,
    borrowerName := d.borrowerName,
    file := d.file,
    extractionResults := d.extractionResults,
    benchmarkResults := RawBench.rbMap d.benchmarkResults,
    webFinancials := d.webFinancials,
    chatHistory := some (d.chatHistory.map (fun m =>
      { id := m.id, role := m.role, text := m.text,
        timestamp := RawDate.fromDate m.timestamp, isError := m.isError })),
    lastModified := RawDate.fromDate d.lastModified }

/-- A raw record is in the current schema shape: its benchmark map is
profile-keyed, its chat history is present with Date timestamps, and its
`lastModified` is a Date. -/
def currentShape (s : RawSession) : Prop :=
  (∃ m, s.benchmarkResults = RawBench.rbMap m) ∧
  (∃ l, s.chatHistory = some l ∧ ∀ msg ∈ l, ∃ t, msg.timestamp = RawDate.fromDate t) ∧
  (∃ t, s.lastModified = RawDate.fromDate t)

/-! ### LocalStore (`src/services/db.ts`) -/

/-- The IndexedDB `sessions` object store, keyed by `id` (key path). -/
def Store : Type := List DealSession

instance : DecidableEq Store :=
  inferInstanceAs (DecidableEq (List DealSession))

/-- `store.put(session)` on an object store with key path `id`: upsert by
the session's id. -/
def putStore (session : DealSession) (st : Store) : Store :=
  upsertBy (fun d => d.id) session st

/-- Read a stored session by id. -/
def lookupStore (st : Store) (id : String) : Option DealSession :=
  st.find? (fun d => d.id = id)

/-- Observable outcome of `JSON.parse` on an import blob, at the
granularity `importDatabase` distinguishes: the parse throws, the parse
yields a non-array value, or it yields an array of session-like records
(which the source then treats duck-typed, exactly as `migrateSessionData`
reads them). `JSON.parse` itself is a host builtin, passed below as an
abstract `parse` function. -/
inductive ParsedBlob : Type
  | malformed
  | nonArray
  | arrayOf (xs : List RawSession)

/-- Errors thrown out of `importDatabase`: the `JSON.parse` SyntaxError,
or the explicit `Invalid backup file format` error. Both are the spec's
`FormatError`. -/
inductive ImportError : Type
  | syntaxErr
  | invalidBackupFormat
deriving DecidableEq, Repr

/-- Result of a call to `importDatabase`: the store afterwards, whether the
state was pushed back to the server file channel, and the thrown error if
any. -/
structure ImportOutcome : Type where
  store : Store
  pushed : Bool
  result : Except ImportError Unit

/-- The statement `session.webFinancials.lastUpdated = new Date(...)`
guarded by `if (session.webFinancials)` inside `importDatabase`. -/
def normalizeWebFinancials (pd : String → Int) (s : DealSession) : DealSession :=
  match s.webFinancials with
  | some wf =>
      let wf2 : WebFinancials :=
        { wf with lastUpdated := RawDate.fromDate (newDate pd wf.lastUpdated) }
      { s with webFinancials := some wf2 }
  | none => s

/-- importDatabase from `src/services/db.ts` (lines 177-209): parse the
blob (rethrowing the parse error), reject a non-array value with
`Invalid backup file format`, otherwise migrate each record and `put` it
into the store (an upsert by id, i.e. a union-by-id merge), then push to
the server only when `shouldSyncToServer` is set. -/
def importDatabase (pd : String → Int) (parse : String → ParsedBlob)
    (jsonString : String) (shouldSyncToServer : Bool) (st : Store) : ImportOutcome :=
  match parse jsonString with
  | ParsedBlob.malformed => ⟨st, false, Except.error ImportError.syntaxErr⟩
  | ParsedBlob.nonArray => ⟨st, false, Except.error ImportError.invalidBackupFormat⟩
  | ParsedBlob.arrayOf rawSessions =>
      let newStore := rawSessions.foldl
        (fun acc s => putStore (normalizeWebFinancials pd (migrateSessionData pd s)) acc) st
      ⟨newStore, shouldSyncToServer, Except.ok ()⟩

/-- Observable outcome of the `fetch(API_URL)` call in `syncFromServer`:
either the fetch threw, or it returned a response with an `ok` flag and a
body text. -/
structure FetchResponse : Type where
  ok : Bool
  text : String

/-- syncFromServer from `src/services/db.ts` (lines 54-66): pull the server
file and, when the body is non-empty and not the empty-array sentinel,
merge it into the local store via `importDatabase` with the sync-back flag
set to false; every error is swallowed. Returns the store afterwards and
whether a push back to the server was triggered. -/
def syncFromServer (pd : String → Int) (parse : String → ParsedBlob)
    (response : Option FetchResponse) (st : Store) : Store × Bool :=
  match response with
  | none => (st, false)
  | some resp =>
      if resp.ok then
        if resp.text ≠ "" ∧ resp.text ≠ "[]" then
          let out := importDatabase pd parse resp.text false st
          (out.store, out.pushed)
        else (st, false)
      else (st, false)

/-! ### Result mapping in `src/services/aiService.ts` -/

/-- A raw record of the array returned by the LLM call inside
`extractAndBenchmark`, as it exists after `JSON.parse`: the fields the
mapping code reads, with `variance` and `benchmarkValue` kept at their
runtime generality. -/
structure RawAIResult : Type where
  term : String
  value : String
  sourceSection : String
  evidence : String
  confidence : String
  benchmarkValue : Option String
  variance : RawVariance
  commentary : String
deriving DecidableEq, Repr

/-- JavaScript `a || b` for an optional string `a`: an absent or empty
string falls back. -/
def jsOrStr (v : Option String) (fallback : String) : String :=
  match v with
  | some s => if s = "" then fallback else s
  | none => fallback

/-- Object-key lookup `benchmarkData[term]` on the benchmark data map. -/
def lookupStr (m : List (String × String)) (k : String) : Option String :=
  (m.find? (fun e => e.1 = k)).map (fun e => e.2)

/-- The result-mapping stage of `extractAndBenchmark`
(`src/services/aiService.ts` lines 246-268), applied to the parsed
`rawResults` array returned by the external LLM call: every record
contributes an extraction entry; a record contributes a benchmarking entry
unless its `variance` is the string `N/A` or null. -/
def extractAndBenchmarkMapResults (benchmarkData : List (String × String))
    (rawResults : List RawAIResult) : List ExtractionResult × List BenchmarkResult :=
  let extraction : List ExtractionResult := rawResults.map (fun r =>
    { term := r.term, value := r.value, sourceSection := r.sourceSection,
      evidence := r.evidence, confidence := r.confidence })
  let benchmarking : List BenchmarkResult := rawResults.filterMap (fun r =>
    if r.variance ≠ RawVariance.str "N/A" ∧ r.variance ≠ RawVariance.null then
      some { term := r.term, extractedValue := r.value,
             benchmarkValue := jsOrStr r.benchmarkValue
               (jsOrStr (lookupStr benchmarkData r.term) "N/A"),
             variance := r.variance, commentary := r.commentary }
    else none)
  (extraction, benchmarking)

/-- A raw record of the array returned by the LLM call inside
`rebenchmarkTerms`. -/
structure RawRebenchResult : Type where
  term : String
  benchmarkValue : Option String
  variance : RawVariance
  commentary : String
deriving DecidableEq, Repr

/-- The result-mapping stage of `rebenchmarkTerms`
(`src/services/aiService.ts` lines 348-360): a record contributes a
benchmarking entry when its term matches a previously extracted term and
its `variance` is not the string `N/A`. -/
def rebenchmarkTermsMapResults (extractedResults : List ExtractionResult)
    (benchmarkData : List (String × String))
    (rawResults : List RawRebenchResult) : List BenchmarkResult :=
  rawResults.filterMap (fun r =>
    match extractedResults.find? (fun e => e.term = r.term) with
    | some orig =>
        if r.variance ≠ RawVariance.str "N/A" then
          some { term := r.term, extractedValue := orig.value,
                 benchmarkValue := jsOrStr r.benchmarkValue
                   (jsOrStr (lookupStr benchmarkData r.term) "N/A"),
                 variance := r.variance, commentary := r.commentary }
        else none
    | none => none)

/-! ### Benchmark map update and batch rebenchmark (`src/App.tsx`) -/

/-- Property write on the profile-keyed benchmark map by object spread:
`{...m, [profileId]: results}` replaces the value of an existing profile
key in place and appends a fresh one. -/
def upsertBench (m : BenchMap) (k : String) (v : List BenchmarkResult) : BenchMap :=
  upsertBy Prod.fst (k, v) m

/-- Property read `benchmarkResults[profileId]`. -/
def lookupBench (m : BenchMap) (k : String) : Option (List BenchmarkResult) :=
  (m.find? (fun e => e.1 = k)).map (fun e => e.2)

/-- The spec's `recordVariance(session, profileId, results)`: the
`updatedBenchmarks` object spread inside `handleRebenchmarkSessions`
(`src/App.tsx` lines 192-196), lifted to the session. -/
def recordVariance (session : DealSession) (profileId : String)
    (results : List BenchmarkResult) : DealSession :=
  { session with benchmarkResults := upsertBench session.benchmarkResults profileId results }

/-- The updated session built for one id inside `handleRebenchmarkSessions`:
benchmark map updated at the active profile and `lastModified` refreshed. -/
def rebenchUpdate (activeProfileId : String) (now : Int)
    (newResults : List BenchmarkResult) (session : DealSession) : DealSession :=
  { recordVariance session activeProfileId newResults with lastModified := now }

/-- Accumulator for the batch loop of `handleRebenchmarkSessions`: the
shared `updatedSessions` array, the persistent store, and the first
rejection observed so far (`Promise.all` rejects with the first failure
while the remaining, already-started closures run to completion). -/
structure RebenchAcc : Type where
  sessions : List DealSession
  store : Store
  firstErr : Option String

/-- One closure of the `Promise.all` batch in `handleRebenchmarkSessions`
(`src/App.tsx` lines 185-201), for one session id: locate the session,
call the external `rebenchmarkTerms` collaborator `rb` on its stored
extraction results, and on success write the updated session into the
shared array and persist it with `saveSession`; a missing id is skipped and
a failure leaves this session untouched. -/
def rebenchStep (rb : List ExtractionResult → Except String (List BenchmarkResult))
    (activeProfileId : String) (now : Int)
    (acc : RebenchAcc) (sessionId : String) : RebenchAcc :=
  match acc.sessions.findIdx? (fun s => s.id = sessionId) with
  | none => acc
  | some i =>
      match acc.sessions[i]? with
      | none => acc
      | some session =>
          match rb session.extractionResults with
          | Except.error e => { acc with firstErr := acc.firstErr.orElse (fun _ => some e) }
          | Except.ok newResults =>
              let updatedSession := rebenchUpdate activeProfileId now newResults session
              { sessions := acc.sessions.set i updatedSession,
                store := putStore updatedSession acc.store,
                firstErr := acc.firstErr }

/-- Result of a call to `handleRebenchmarkSessions`: the React sessions
state afterwards (`setSessions` runs only when every closure succeeded,
since `Promise.all` rejects first otherwise), the persistent store, and
what the caller's awaited promise resolves or rejects with. -/
structure RebenchOutcome : Type where
  sessions : List DealSession
  store : Store
  result : Except String Unit

/-- handleRebenchmarkSessions from `src/App.tsx` (lines 181-204), with the
external `rebenchmarkTerms` call abstracted as `rb` and the concurrent
`Promise.all` over per-session closures modelled as the equivalent
sequential fold (the closures touch distinct sessions and each persists
its own session independently). -/
def handleRebenchmarkSessions
    (rb : List ExtractionResult → Except String (List BenchmarkResult))
    (activeProfileId : String) (now : Int)
    (sessionIds : List String) (sessions : List DealSession) (st : Store) : RebenchOutcome :=
  let acc := sessionIds.foldl (rebenchStep rb activeProfileId now) ⟨sessions, st, none⟩
  match acc.firstErr with
  | none => ⟨acc.sessions, acc.store, Except.ok ()⟩
  | some e => ⟨sessions, acc.store, Except.error e⟩

/-! ### BenchmarkManager (`src/components`, unnamed part 000) -/

/-- Outcome of `handleDeleteProfile`: the last-profile guard fired (the
`Cannot delete the last profile` alert), the user declined the confirm
prompt, the deletion went through, or the code crashed reading
`newProfiles[0].id` on an empty remainder. -/
inductive DeleteProfileResult : Type
  | rejectedLastProfile
  | cancelled
  | deleted
  | crashed
deriving DecidableEq, Repr

/-- The profile list and active-profile pointer held by the component. -/
structure ProfilesState : Type where
  profiles : List BenchmarkProfile
  activeProfileId : String
deriving DecidableEq, Repr

/-- handleDeleteProfile from the BenchmarkManager component (unnamed part
000, lines 70-82): refuse when at most one profile exists, otherwise (after
the confirm prompt, modelled by `confirmed`) drop the profile with the
given id and, when it was the active one, reassign the pointer to the first
remaining profile. -/
def handleDeleteProfile (confirmed : Bool) (st : ProfilesState) (id : String) :
    ProfilesState × DeleteProfileResult :=
  if st.profiles.length ≤ 1 then
    (st, DeleteProfileResult.rejectedLastProfile)
  else if confirmed then
    if st.activeProfileId = id then
      match (st.profiles.filter (fun p => p.id ≠ id)).head? with
      | some p =>
          ({ profiles := st.profiles.filter (fun p => p.id ≠ id), activeProfileId := p.id },
           DeleteProfileResult.deleted)
      | none =>
          ({ profiles := st.profiles.filter (fun p => p.id ≠ id),
             activeProfileId := st.activeProfileId },
           DeleteProfileResult.crashed)
    else
      ({ st with profiles := st.profiles.filter (fun p => p.id ≠ id) },
       DeleteProfileResult.deleted)
  else
    (st, DeleteProfileResult.cancelled)

/-! ### AnalysisView (unnamed part 001, second version) -/

/-- The session-backed state handleAnalyze manipulates: the extraction
results, the (flat, this schema version) benchmark results, and the
borrower name. -/
structure AnalysisState : Type where
  results : List ExtractionResult
  benchmarkResults : List BenchmarkResult
  borrowerName : String
deriving DecidableEq, Repr

/-- How handleAnalyze finished: the happy path completed, or the catch
block fired the `Analysis failed. Please try again.` alert (the error is
not rethrown to the caller). -/
inductive AnalyzeOutcome : Type
  | completed
  | failedAlert
deriving DecidableEq, Repr

/-- handleAnalyze from the AnalysisView component (unnamed part 001, lines
1076-1103), with the external `extractAndBenchmark` call abstracted as
`extract`: the results and benchmark results are cleared before the call;
on success they are replaced and the borrower name updated from the
`Borrower Name` term when present, non-empty and not `Not Found`; on
failure the catch block swallows the error behind an alert. -/
def handleAnalyze
    (extract : Except String (List ExtractionResult × List BenchmarkResult))
    (st : AnalysisState) : AnalysisState × AnalyzeOutcome :=
  let cleared : AnalysisState := { st with results := [], benchmarkResults := [] }
  match extract with
  | Except.error _ => (cleared, AnalyzeOutcome.failedAlert)
  | Except.ok (extraction, benchmarking) =>
      let newName :=
        match extraction.find? (fun r => r.term = "Borrower Name") with
        | some bt => if bt.value ≠ "" ∧ bt.value ≠ "Not Found" then bt.value else st.borrowerName
        | none => st.borrowerName
      ({ results := extraction, benchmarkResults := benchmarking, borrowerName := newName },
       AnalyzeOutcome.completed)

/-! ### Helper lemmas about the keyed upsert -/

theorem find?_map_replace {α : Type} (key : α → String) (x : α) (k : String) (l : List α) :
    (l.map (fun y => if key y = key x then x else y)).find? (fun y => key y = k) =
      if key x = k then (if l.any (fun y => key y = key x) then some x else none)
      else l.find? (fun y => key y = k) := by
  induction l with
  | nil =>
      by_cases hk : key x = k <;> simp [hk]
  | cons a l ih =>
      by_cases hk : key x = k
      · subst hk
        by_cases hax : key a = key x
        · simp [List.find?_cons, hax, ih]
        · simp [List.find?_cons, hax, ih]
      · by_cases hax : key a = key x
        · have hak : ¬ (key a = k) := fun hc => hk (hax.symm.trans hc)
          simp [List.find?_cons, hax, hak, hk, ih]
        · by_cases hak : key a = k
          · have hkx : ¬ (k = key x) := fun hc => hk hc.symm
            simp [List.find?_cons, hax, hak, hk, hkx, ih]
          · simp [List.find?_cons, hax, hak, hk, ih]

theorem find?_upsertBy {α : Type} (key : α → String) (x : α) (l : List α) (k : String) :
    (upsertBy key x l).find? (fun y => key y = k) =
      if key x = k then some x else l.find? (fun y => key y = k) := by
  unfold upsertBy
  by_cases hany : l.any (fun y => key y = key x) = true
  · rw [if_pos hany, find?_map_replace]
    by_cases hk : key x = k
    · subst hk
      simp [hany]
    · simp [hk]
  · rw [if_neg hany, List.find?_append]
    have hall : ∀ y ∈ l, ¬ (key y = key x) := by
      intro y hy hc
      exact hany (List.any_eq_true.mpr ⟨y, hy, by simp [hc]⟩)
    by_cases hk : key x = k
    · have hnone : l.find? (fun y => key y = k) = none := by
        refine List.find?_eq_none.mpr ?_
        intro y hy
        simp only [decide_eq_true_eq]
        intro hc
        exact hall y hy (hc.trans hk.symm)
      simp [hnone, List.find?_cons, hk]
    · simp [List.find?_cons, hk]

theorem lookupStore_putStore (u : DealSession) (st : Store) (k : String) :
    lookupStore (putStore u st) k = if u.id = k then some u else lookupStore st k := by
  unfold lookupStore putStore
  exact find?_upsertBy (fun d => d.id) u st k

theorem lookupBench_upsertBench (m : BenchMap) (k : String) (v : List BenchmarkResult)
    (j : String) :
    lookupBench (upsertBench m k v) j = if k = j then some v else lookupBench m j := by
  unfold lookupBench upsertBench
  rw [find?_upsertBy]
  by_cases h : k = j <;> simp [h]

/-- Round trip of one migrated chat message through its raw view. -/
theorem migrateChat_roundtrip (pd : String → Int) (m : ChatMessage) :
    migrateChatMessage pd
      { id := m.id, role := m.role, text := m.text,
        timestamp := RawDate.fromDate m.timestamp, isError := m.isError } = m := rfl

/-! ### Claim C1 -/

/-- C1: recording variance results under profile B sets the session's
`benchmarkResults[B]` to the new list and leaves the stored entry of every
other profile id A unchanged: re-benchmarking against B never clobbers the
variance previously computed for A. -/
theorem recordVariance_profile_isolation (s : DealSession) (A B : String)
    (r : List BenchmarkResult) (h : A ≠ B) :
    lookupBench (recordVariance s B r).benchmarkResults A = lookupBench s.benchmarkResults A ∧
    lookupBench (recordVariance s B r).benchmarkResults B = some r := by
  unfold recordVariance
  refine ⟨?_, ?_⟩
  · rw [lookupBench_upsertBench]
    exact if_neg (fun hc => h hc.symm)
  · rw [lookupBench_upsertBench]
    simp

/-- Fixed concrete objects used by the closed witnesses below. -/
def fileW : UploadedFile :=
  { name := "doc.pdf", type := "application/pdf", data := "QkFTRTY0", size := 4 }

def benchResW : BenchmarkResult :=
  { term := "Governing Law", extractedValue := "New York", benchmarkValue := "New York",
    variance := RawVariance.str "Green", commentary := "In line" }

def sessionW : DealSession :=
  { id := "s1", borrowerName := "Acme", file := fileW, extractionResults := [],
    benchmarkResults := [("profileA", [benchResW])], webFinancials := none,
    chatHistory := [], lastModified := 0 }

/-- Witness for C1 at a concrete session and distinct profile ids. -/
theorem recordVariance_profile_isolation_witness :
    "profileA" ≠ "profileB" ∧
    (lookupBench (recordVariance sessionW "profileB" []).benchmarkResults "profileA" =
        lookupBench sessionW.benchmarkResults "profileA" ∧
     lookupBench (recordVariance sessionW "profileB" []).benchmarkResults "profileB" =
        some []) :=
  ⟨by decide, recordVariance_profile_isolation sessionW "profileA" "profileB" [] (by decide)⟩

/-! ### Claim C3 -/

/-- C3: migration wraps a flat legacy `benchmarkResults` list under the
well-known default profile id as the single key, and defaults a missing
`chatHistory` or `benchmarkResults` to the empty collection rather than
null/undefined. -/
theorem migrateSessionData_legacy_and_defaults (pd : String → Int) (s : RawSession) :
    (∀ l, s.benchmarkResults = RawBench.rbList l →
        (migrateSessionData pd s).benchmarkResults = [(defaultProfileId, l)]) ∧
    (s.chatHistory = none → (migrateSessionData pd s).chatHistory = []) ∧
    (s.benchmarkResults = RawBench.rbNone → (migrateSessionData pd s).benchmarkResults = []) := by
  refine ⟨?_, ?_, ?_⟩
  · intro l h
    simp [migrateSessionData, h]
  · intro h
    simp [migrateSessionData, h]
  · intro h
    simp [migrateSessionData, h]

def pdW : String → Int := fun _ => 0

def rawLegacyW : RawSession :=
  { id := "s1", borrowerName := "Acme", file := fileW, extractionResults := [],
    benchmarkResults := RawBench.rbList [benchResW], webFinancials := none,
    chatHistory := some [], lastModified := RawDate.fromNum 1000 }

def rawBareW : RawSession :=
  { id := "s2", borrowerName := "Acme", file := fileW, extractionResults := [],
    benchmarkResults := RawBench.rbNone, webFinancials := none,
    chatHistory := none, lastModified := RawDate.fromNum 0 }

/-- Witness for C3: a legacy flat-list record and a record with missing
collections, migrated concretely. -/
theorem migrateSessionData_legacy_and_defaults_witness :
    (migrateSessionData pdW rawLegacyW).benchmarkResults = [(defaultProfileId, [benchResW])] ∧
    (migrateSessionData pdW rawBareW).chatHistory = [] ∧
    (migrateSessionData pdW rawBareW).benchmarkResults = [] :=
  ⟨(migrateSessionData_legacy_and_defaults pdW rawLegacyW).1 [benchResW] rfl,
   (migrateSessionData_legacy_and_defaults pdW rawBareW).2.1 rfl,
   (migrateSessionData_legacy_and_defaults pdW rawBareW).2.2 rfl⟩

/-! ### Claim C4 -/

/-- C4: migration is idempotent on records already in the current schema
shape: re-running `migrateSessionData` on the (raw view of the) output of
a first run returns the same record. -/
theorem migrateSessionData_idempotent (pd : String → Int) (r : RawSession)
    (h : currentShape r) :
    migrateSessionData pd (toRaw (migrateSessionData pd r)) = migrateSessionData pd r := by
  clear h
  unfold migrateSessionData toRaw
  cases hb : r.benchmarkResults <;>
    simp [newDate, List.map_map, Function.comp_def, migrateChatMessage]

def rawCurrentW : RawSession :=
  { id := "s3", borrowerName := "Acme", file := fileW, extractionResults := [],
    benchmarkResults := RawBench.rbMap [("us_large_cap", [benchResW])], webFinancials := none,
    chatHistory := some [{ id := "m1", role := "user", text := "hi",
                           timestamp := RawDate.fromDate 5, isError := none }],
    lastModified := RawDate.fromDate 99 }

/-- Witness for C4 at a concrete current-shape record. -/
theorem migrateSessionData_idempotent_witness :
    currentShape rawCurrentW ∧
    migrateSessionData pdW (toRaw (migrateSessionData pdW rawCurrentW)) =
      migrateSessionData pdW rawCurrentW := by
  have hcs : currentShape rawCurrentW := by
    refine ⟨⟨_, rfl⟩, ⟨_, rfl, ?_⟩, ⟨99, rfl⟩⟩
    intro msg hm
    rw [List.mem_singleton] at hm
    subst hm
    exact ⟨5, rfl⟩
  exact ⟨hcs, migrateSessionData_idempotent pdW rawCurrentW hcs⟩

/-! ### Claims C2 and C10 -/

/-- The cooking applied to each imported record inside `importDatabase`:
migration followed by the `webFinancials.lastUpdated` normalization. -/
def importCook (pd : String → Int) (s : RawSession) : DealSession :=
  normalizeWebFinancials pd (migrateSessionData pd s)

theorem importCook_id (pd : String → Int) (s : RawSession) :
    (importCook pd s).id = s.id := by
  unfold importCook normalizeWebFinancials migrateSessionData
  cases s.webFinancials <;> rfl

theorem importDatabase_eq_cook_fold (pd : String → Int) (parse : String → ParsedBlob)
    (blob : String) (sync : Bool) (st : Store) (xs : List RawSession)
    (h : parse blob = ParsedBlob.arrayOf xs) :
    importDatabase pd parse blob sync st =
      ⟨xs.foldl (fun acc s => putStore (importCook pd s) acc) st, sync, Except.ok ()⟩ := by
  unfold importDatabase importCook
  rw [h]

theorem importDatabase_malformed_eq (pd : String → Int) (parse : String → ParsedBlob)
    (blob : String) (sync : Bool) (st : Store)
    (h : parse blob = ParsedBlob.malformed) :
    importDatabase pd parse blob sync st = ⟨st, false, Except.error ImportError.syntaxErr⟩ := by
  unfold importDatabase
  rw [h]

theorem importDatabase_nonArray_eq (pd : String → Int) (parse : String → ParsedBlob)
    (blob : String) (sync : Bool) (st : Store)
    (h : parse blob = ParsedBlob.nonArray) :
    importDatabase pd parse blob sync st =
      ⟨st, false, Except.error ImportError.invalidBackupFormat⟩ := by
  unfold importDatabase
  rw [h]

/-- The keyed fold of puts realizes a union-by-id merge: an id occurring
among the imported records ends up mapped to the cooked form of its last
occurrence, and every other id keeps its prior binding. -/
theorem lookupStore_cook_fold (pd : String → Int) (xs : List RawSession) (st : Store)
    (k : String) :
    lookupStore (xs.foldl (fun acc s => putStore (importCook pd s) acc) st) k =
      match xs.reverse.find? (fun y => y.id = k) with
      | some x => some (importCook pd x)
      | none => lookupStore st k := by
  induction xs generalizing st with
  | nil => simp
  | cons x xs ih =>
      rw [List.foldl_cons, ih, List.reverse_cons, List.find?_append]
      cases hfind : xs.reverse.find? (fun y => decide (y.id = k)) with
      | some y => simp
      | none =>
          simp only [Option.none_or]
          rw [lookupStore_putStore, importCook_id]
          by_cases hx : x.id = k
          · simp [List.find?_cons, hx]
          · simp [List.find?_cons, hx]

/-- C2: `importDatabase` fails with a format error (leaving the store as
it was) when the blob is not valid JSON or does not parse to an array of
session-like records, and otherwise merges into the existing store by id:
an imported id ends up bound to the migrated imported record (its last
occurrence, fully replacing any same-id local record), and every
non-colliding local record is preserved. -/
theorem importDatabase_union_by_id_merge (pd : String → Int) (parse : String → ParsedBlob)
    (blob : String) (sync : Bool) (st : Store) :
    ((parse blob = ParsedBlob.malformed ∨ parse blob = ParsedBlob.nonArray) →
        (importDatabase pd parse blob sync st).store = st ∧
        ∃ e, (importDatabase pd parse blob sync st).result = Except.error e) ∧
    (∀ xs, parse blob = ParsedBlob.arrayOf xs →
        (importDatabase pd parse blob sync st).result = Except.ok () ∧
        (∀ k x, xs.reverse.find? (fun y => y.id = k) = some x →
            lookupStore (importDatabase pd parse blob sync st).store k =
              some (importCook pd x)) ∧
        (∀ k, xs.reverse.find? (fun y => y.id = k) = none →
            lookupStore (importDatabase pd parse blob sync st).store k =
              lookupStore st k)) := by
  constructor
  · rintro (h | h)
    · rw [importDatabase_malformed_eq pd parse blob sync st h]
      exact ⟨rfl, ImportError.syntaxErr, rfl⟩
    · rw [importDatabase_nonArray_eq pd parse blob sync st h]
      exact ⟨rfl, ImportError.invalidBackupFormat, rfl⟩
  · intro xs h
    rw [importDatabase_eq_cook_fold pd parse blob sync st xs h]
    refine ⟨rfl, ?_, ?_⟩
    · intro k x hfind
      rw [lookupStore_cook_fold, hfind]
    · intro k hfind
      rw [lookupStore_cook_fold, hfind]

def rawImportW1 : RawSession :=
  { id := "s1", borrowerName := "Acme Updated", file := fileW, extractionResults := [],
    benchmarkResults := RawBench.rbMap [], webFinancials := none,
    chatHistory := some [], lastModified := RawDate.fromNum 2000 }

def rawImportW2 : RawSession :=
  { id := "s2", borrowerName := "Beta", file := fileW, extractionResults := [],
    benchmarkResults := RawBench.rbNone, webFinancials := none,
    chatHistory := none, lastModified := RawDate.fromNum 3000 }

def storeW : Store :=
  [{ id := "s1", borrowerName := "Acme", file := fileW, extractionResults := [],
     benchmarkResults := [], webFinancials := none, chatHistory := [], lastModified := 1 },
   { id := "s3", borrowerName := "Gamma", file := fileW, extractionResults := [],
     benchmarkResults := [], webFinancials := none, chatHistory := [], lastModified := 2 }]

def parseW : String → ParsedBlob := fun s =>
  if s = "backup" then ParsedBlob.arrayOf [rawImportW1, rawImportW2]
  else if s = "42" then ParsedBlob.nonArray
  else ParsedBlob.malformed

/-- Witness for C2: a failed import on a malformed blob, and a concrete
merge where imported `s1` replaces local `s1`, imported `s2` is added, and
local `s3` is preserved. -/
theorem importDatabase_union_by_id_merge_witness :
    ((importDatabase pdW parseW "bad" true storeW).store = storeW ∧
      ∃ e, (importDatabase pdW parseW "bad" true storeW).result = Except.error e) ∧
    (importDatabase pdW parseW "backup" true storeW).result = Except.ok () ∧
    lookupStore (importDatabase pdW parseW "backup" true storeW).store "s1" =
      some (importCook pdW rawImportW1) ∧
    lookupStore (importDatabase pdW parseW "backup" true storeW).store "s2" =
      some (importCook pdW rawImportW2) ∧
    lookupStore (importDatabase pdW parseW "backup" true storeW).store "s3" =
      lookupStore storeW "s3" :=
  ⟨(importDatabase_union_by_id_merge pdW parseW "bad" true storeW).1 (Or.inl rfl),
   ((importDatabase_union_by_id_merge pdW parseW "backup" true storeW).2
      [rawImportW1, rawImportW2] rfl).1,
   ((importDatabase_union_by_id_merge pdW parseW "backup" true storeW).2
      [rawImportW1, rawImportW2] rfl).2.1 "s1" rawImportW1 (by decide),
   ((importDatabase_union_by_id_merge pdW parseW "backup" true storeW).2
      [rawImportW1, rawImportW2] rfl).2.1 "s2" rawImportW2 (by decide),
   ((importDatabase_union_by_id_merge pdW parseW "backup" true storeW).2
      [rawImportW1, rawImportW2] rfl).2.2 "s3" (by decide)⟩

/-- C10: `importDatabase` is atomic on format errors: when the blob is not
valid JSON or parses to a non-array value, it throws before any record is
written, the stored session set is exactly what it was before the call,
and no push to the server channel happens. -/
theorem importDatabase_atomic_on_format_error (pd : String → Int)
    (parse : String → ParsedBlob) (blob : String) (sync : Bool) (st : Store)
    (h : parse blob = ParsedBlob.malformed ∨ parse blob = ParsedBlob.nonArray) :
    (importDatabase pd parse blob sync st).store = st ∧
    (∃ e, (importDatabase pd parse blob sync st).result = Except.error e) ∧
    (importDatabase pd parse blob sync st).pushed = false := by
  rcases h with h | h
  · rw [importDatabase_malformed_eq pd parse blob sync st h]
    exact ⟨rfl, ⟨ImportError.syntaxErr, rfl⟩, rfl⟩
  · rw [importDatabase_nonArray_eq pd parse blob sync st h]
    exact ⟨rfl, ⟨ImportError.invalidBackupFormat, rfl⟩, rfl⟩

/-- Witness for C10 at a concrete malformed blob. -/
theorem importDatabase_atomic_on_format_error_witness :
    (parseW "bad" = ParsedBlob.malformed ∨ parseW "bad" = ParsedBlob.nonArray) ∧
    ((importDatabase pdW parseW "bad" true storeW).store = storeW ∧
     (∃ e, (importDatabase pdW parseW "bad" true storeW).result = Except.error e) ∧
     (importDatabase pdW parseW "bad" true storeW).pushed = false) :=
  ⟨Or.inl rfl, importDatabase_atomic_on_format_error pdW parseW "bad" true storeW (Or.inl rfl)⟩

/-! ### Claim C7 -/

theorem importDatabase_pushed_of_no_sync (pd : String → Int) (parse : String → ParsedBlob)
    (blob : String) (st : Store) :
    (importDatabase pd parse blob false st).pushed = false := by
  unfold importDatabase
  cases parse blob <;> rfl

/-- C7: the sync-from-server path never triggers a push back to the file
channel: applying a pulled file into the local store goes through
`importDatabase` with the sync-back flag cleared, so a pull can never start
a pull-push-pull cycle. -/
theorem syncFromServer_never_pushes (pd : String → Int) (parse : String → ParsedBlob)
    (response : Option FetchResponse) (st : Store) :
    (syncFromServer pd parse response st).2 = false := by
  unfold syncFromServer
  cases response with
  | none => rfl
  | some resp =>
      by_cases hok : resp.ok
      · simp only [hok, if_true]
        split_ifs with ht
        · exact importDatabase_pushed_of_no_sync pd parse resp.text st
        · rfl
      · simp [hok]

/-! ### Claim C5 -/

def analysisStateW : AnalysisState :=
  { results := [{ term := "Facility Amount", value := "$100M", sourceSection := "S1",
                  evidence := "quote", confidence := "High" }],
    benchmarkResults := [benchResW],
    borrowerName := "Acme" }

/-- Counterexample for C5 as stated: at a session state holding previously
stored extraction and benchmark results, a failing extraction call leaves
the state changed — both result lists were cleared at the start of
`handleAnalyze` — and the outcome is the swallowed-alert path, not a
propagated error. -/
theorem handleAnalyze_failure_counterexample :
    (handleAnalyze (Except.error "network error") analysisStateW).1 ≠ analysisStateW ∧
    (handleAnalyze (Except.error "network error") analysisStateW).1.results = [] ∧
    (handleAnalyze (Except.error "network error") analysisStateW).1.benchmarkResults = [] ∧
    analysisStateW.results ≠ [] ∧
    (handleAnalyze (Except.error "network error") analysisStateW).2 =
      AnalyzeOutcome.failedAlert := by
  decide

/-- C5 amended: when the extraction call fails, `handleAnalyze` catches the
error (surfacing an alert, not propagating), and the session's extraction
and benchmark results — cleared unconditionally before the call — end up
empty whatever they previously were; only the borrower name survives. -/
theorem handleAnalyze_failure_behavior (e : String) (st : AnalysisState) :
    (handleAnalyze (Except.error e) st).1.results = [] ∧
    (handleAnalyze (Except.error e) st).1.benchmarkResults = [] ∧
    (handleAnalyze (Except.error e) st).1.borrowerName = st.borrowerName ∧
    (handleAnalyze (Except.error e) st).2 = AnalyzeOutcome.failedAlert :=
  ⟨rfl, rfl, rfl, rfl⟩

/-! ### Claim C6 -/

def rawUndefVarianceW : RawAIResult :=
  { term := "Facility Amount", value := "$100M", sourceSection := "S1", evidence := "q",
    confidence := "High", benchmarkValue := some "$50M", variance := RawVariance.undef,
    commentary := "c" }

/-- Counterexample for C6 as stated: a raw LLM record whose `variance`
field is absent (undefined) passes the `!== "N/A" && !== null` filter of
`extractAndBenchmark`, so an entry is stored whose variance is undefined —
not one of the Green/Yellow/Red enum values. -/
theorem extractAndBenchmark_absent_variance_counterexample :
    ((extractAndBenchmarkMapResults [] [rawUndefVarianceW]).2.map
        (fun b => b.variance)) = [RawVariance.undef] ∧
    RawVariance.undef ∉
      [RawVariance.str "Green", RawVariance.str "Yellow", RawVariance.str "Red"] := by
  decide

/-- C6 amended: `extractAndBenchmark` omits exactly the terms whose
reported variance is the string `N/A` or null, and `rebenchmarkTerms` omits
exactly those reported as the string `N/A` (or not matching a previously
extracted term); hence no stored entry ever carries an `N/A` (or, for
`extractAndBenchmark`, null) variance — but an absent (undefined) or
otherwise unparseable variance is stored as-is, not omitted. -/
theorem benchmark_results_never_store_NA (bd : List (String × String))
    (raws : List RawAIResult) (extracted : List ExtractionResult)
    (bd2 : List (String × String)) (raws2 : List RawRebenchResult) :
    (∀ b ∈ (extractAndBenchmarkMapResults bd raws).2,
        b.variance ≠ RawVariance.str "N/A" ∧ b.variance ≠ RawVariance.null) ∧
    (∀ b ∈ rebenchmarkTermsMapResults extracted bd2 raws2,
        b.variance ≠ RawVariance.str "N/A") := by
  constructor
  · intro b hb
    unfold extractAndBenchmarkMapResults at hb
    simp only [List.mem_filterMap] at hb
    obtain ⟨r, _, hf⟩ := hb
    by_cases hc : r.variance ≠ RawVariance.str "N/A" ∧ r.variance ≠ RawVariance.null
    · rw [if_pos hc] at hf
      cases hf
      exact hc
    · rw [if_neg hc] at hf
      cases hf
  · intro b hb
    unfold rebenchmarkTermsMapResults at hb
    simp only [List.mem_filterMap] at hb
    obtain ⟨r, _, hf⟩ := hb
    cases hfind : extracted.find? (fun e => e.term = r.term) with
    | none =>
        rw [hfind] at hf
        cases hf
    | some orig =>
        rw [hfind] at hf
        dsimp only at hf
        by_cases hc : r.variance ≠ RawVariance.str "N/A"
        · rw [if_pos hc] at hf
          cases hf
          exact hc
        · rw [if_neg hc] at hf
          cases hf

def rawGreenW : RawAIResult :=
  { term := "Governing Law", value := "New York", sourceSection := "S9", evidence := "q",
    confidence := "High", benchmarkValue := some "New York",
    variance := RawVariance.str "Green", commentary := "In line" }

def rawRebenchGreenW : RawRebenchResult :=
  { term := "Governing Law", benchmarkValue := some "Ontario",
    variance := RawVariance.str "Green", commentary := "ok" }

def extrGovW : ExtractionResult :=
  { term := "Governing Law", value := "New York", sourceSection := "S9", evidence := "q",
    confidence := "High" }

/-- Witness for the amended C6 at concrete stored entries from both
mapping stages. -/
theorem benchmark_results_never_store_NA_witness :
    (benchResW ∈ (extractAndBenchmarkMapResults [] [rawGreenW]).2 ∧
      (benchResW.variance ≠ RawVariance.str "N/A" ∧
       benchResW.variance ≠ RawVariance.null)) ∧
    (∀ b ∈ rebenchmarkTermsMapResults [extrGovW] [] [rawRebenchGreenW],
        b.variance ≠ RawVariance.str "N/A") :=
  ⟨⟨by decide,
    (benchmark_results_never_store_NA [] [rawGreenW] [] [] []).1 benchResW (by decide)⟩,
   (benchmark_results_never_store_NA [] [rawGreenW] [extrGovW] [] [rawRebenchGreenW]).2⟩

/-! ### Claim C8 -/

theorem length_filter_ne_of_nodup (id : String) :
    ∀ (l : List BenchmarkProfile), (l.map (fun p => p.id)).Nodup →
      id ∈ l.map (fun p => p.id) →
      (l.filter (fun p => p.id ≠ id)).length = l.length - 1 := by
  intro l
  induction l with
  | nil => simp
  | cons a l ih =>
      intro hnd hmem
      simp only [List.map_cons, List.nodup_cons] at hnd
      by_cases ha : a.id = id
      · have hnotin : id ∉ l.map (fun p => p.id) := by
          rw [← ha]
          exact hnd.1
        have hfilter : l.filter (fun p => p.id ≠ id) = l := by
          apply List.filter_eq_self.mpr
          intro p hp
          simp only [ne_eq, decide_not, Bool.not_eq_eq_eq_not, Bool.not_true,
            decide_eq_false_iff_not]
          intro hc
          exact hnotin (hc ▸ List.mem_map_of_mem (fun q => q.id) hp)
        have hpred : ¬ (decide (a.id ≠ id) = true) := by simp [ha]
        rw [List.filter_cons, if_neg hpred, hfilter]
        simp
      · have hmem2 : id ∈ l.map (fun p => p.id) := by
          simp only [List.map_cons, List.mem_cons] at hmem
          rcases hmem with h | h
          · exact absurd h.symm ha
          · exact h
        have hlen : 1 ≤ l.length := by
          rcases List.mem_map.mp hmem2 with ⟨p, hp, _⟩
          exact List.length_pos.mpr (List.ne_nil_of_mem hp)
        have hrec := ih hnd.2 hmem2
        simp only [List.filter_cons]
        rw [if_pos (by simpa using ha)]
        simp only [List.length_cons, hrec]
        omega

/-- C8: a request to delete the sole remaining profile is rejected (the
last-profile guard fires) and leaves the state unchanged; with two or more
profiles (and distinct ids), deleting an existing one succeeds, removes
exactly that profile, and — when the deleted profile was the active one —
reassigns `activeProfileId` to some remaining profile's id. -/
theorem handleDeleteProfile_invariants (confirmed : Bool) (st : ProfilesState) (id : String) :
    (st.profiles.length = 1 →
        handleDeleteProfile confirmed st id = (st, DeleteProfileResult.rejectedLastProfile)) ∧
    (2 ≤ st.profiles.length → confirmed = true →
        (st.profiles.map (fun p => p.id)).Nodup →
        id ∈ st.profiles.map (fun p => p.id) →
        ((handleDeleteProfile confirmed st id).2 = DeleteProfileResult.deleted ∧
         (handleDeleteProfile confirmed st id).1.profiles.length = st.profiles.length - 1 ∧
         id ∉ (handleDeleteProfile confirmed st id).1.profiles.map (fun p => p.id) ∧
         (st.activeProfileId = id →
            (handleDeleteProfile confirmed st id).1.activeProfileId ∈
              (handleDeleteProfile confirmed st id).1.profiles.map (fun p => p.id)))) := by
  constructor
  · intro h1
    unfold handleDeleteProfile
    rw [if_pos (by omega)]
  · intro h2 hc hnd hmem
    subst hc
    have hguard : ¬ st.profiles.length ≤ 1 := by omega
    have hflen : (st.profiles.filter (fun p => p.id ≠ id)).length = st.profiles.length - 1 :=
      length_filter_ne_of_nodup id st.profiles hnd hmem
    have hnotmem : ∀ q ∈ st.profiles.filter (fun p => p.id ≠ id), q.id ≠ id := by
      intro q hq
      have := (List.mem_filter.mp hq).2
      simpa using this
    have hid_out : id ∉ (st.profiles.filter (fun p => p.id ≠ id)).map (fun p => p.id) := by
      intro hin
      rcases List.mem_map.mp hin with ⟨q, hq, hqid⟩
      exact hnotmem q hq hqid
    by_cases hact : st.activeProfileId = id
    · cases hnp : (st.profiles.filter (fun p => p.id ≠ id)) with
      | nil =>
          exfalso
          rw [hnp] at hflen
          simp at hflen
          omega
      | cons p ps =>
          have heval : handleDeleteProfile true st id =
              ({ profiles := p :: ps, activeProfileId := p.id }, DeleteProfileResult.deleted) := by
            unfold handleDeleteProfile
            rw [if_neg hguard, if_pos rfl, if_pos hact, hnp]
            rfl
          rw [heval]
          refine ⟨rfl, ?_, ?_, ?_⟩
          · rw [← hnp, hflen]
          · rw [← hnp]
            exact hid_out
          · intro _
            simp
    · have heval : handleDeleteProfile true st id =
          ({ st with profiles := st.profiles.filter (fun p => p.id ≠ id) },
           DeleteProfileResult.deleted) := by
        unfold handleDeleteProfile
        rw [if_neg hguard, if_pos rfl, if_neg hact]
      rw [heval]
      exact ⟨rfl, hflen, hid_out, fun hcontra => absurd hcontra hact⟩

def profilesTwoW : ProfilesState :=
  { profiles :=
      [{ id := "p1", name := "One", data := [] }, { id := "p2", name := "Two", data := [] }],
    activeProfileId := "p1" }

def profilesOneW : ProfilesState :=
  { profiles := [{ id := "p1", name := "One", data := [] }], activeProfileId := "p1" }

/-- Witness for C8: the last-profile rejection at a one-profile state, and
a successful deletion of the active profile at a two-profile state. -/
theorem handleDeleteProfile_invariants_witness :
    (profilesOneW.profiles.length = 1 ∧
      handleDeleteProfile true profilesOneW "p1" =
        (profilesOneW, DeleteProfileResult.rejectedLastProfile)) ∧
    ((handleDeleteProfile true profilesTwoW "p1").2 = DeleteProfileResult.deleted ∧
     (handleDeleteProfile true profilesTwoW "p1").1.profiles.length =
        profilesTwoW.profiles.length - 1 ∧
     "p1" ∉ (handleDeleteProfile true profilesTwoW "p1").1.profiles.map (fun p => p.id) ∧
     (profilesTwoW.activeProfileId = "p1" →
        (handleDeleteProfile true profilesTwoW "p1").1.activeProfileId ∈
          (handleDeleteProfile true profilesTwoW "p1").1.profiles.map (fun p => p.id))) :=
  ⟨⟨by decide, (handleDeleteProfile_invariants true profilesOneW "p1").1 (by decide)⟩,
   (handleDeleteProfile_invariants true profilesTwoW "p1").2 (by decide) rfl
     (by decide) (by decide)⟩

/-! ### Claim C9 -/

/-- Replace the first element satisfying `p` by its image under `f`. This
is what `arr[arr.findIndex(p)] = f(found)` amounts to. -/
def replaceFirstMap {α : Type} (p : α → Bool) (f : α → α) : List α → List α
  | [] => []
  | x :: xs => if p x then f x :: xs else x :: replaceFirstMap p f xs

theorem findIdx?_getElem?_eq_find? {α : Type} (p : α → Bool) :
    ∀ (l : List α),
      (match l.findIdx? p with
       | none => (none : Option α)
       | some i => l[i]?) = l.find? p := by
  intro l
  induction l with
  | nil => simp
  | cons x xs ih =>
      rw [List.findIdx?_cons]
      by_cases hx : p x
      · simp [hx, List.find?_cons]
      · rw [if_neg hx, List.findIdx?_succ]
        cases h : xs.findIdx? p with
        | none =>
            rw [h] at ih
            simp [h, List.find?_cons, hx, ← ih]
        | some i =>
            rw [h] at ih
            simp [h, List.find?_cons, hx, List.getElem?_cons_succ, ← ih]

theorem set_found_eq_replaceFirstMap {α : Type} (p : α → Bool) (f : α → α) :
    ∀ (l : List α) (i : Nat) (y : α), l.findIdx? p = some i → l[i]? = some y →
      l.set i (f y) = replaceFirstMap p f l := by
  intro l
  induction l with
  | nil =>
      intro i y h
      simp [List.findIdx?_nil] at h
  | cons x xs ih =>
      intro i y hidx hget
      rw [List.findIdx?_cons] at hidx
      by_cases hx : p x
      · rw [if_pos hx] at hidx
        have hi : i = 0 := by
          cases hidx
          rfl
        subst hi
        have hy : x = y := by
          simpa using hget
        subst hy
        simp [replaceFirstMap, hx]
      · rw [if_neg hx, List.findIdx?_succ] at hidx
        cases h : xs.findIdx? p with
        | none =>
            rw [h] at hidx
            cases hidx
        | some j =>
            rw [h] at hidx
            rw [Option.map_some'] at hidx
            have hi : i = j + 1 := by
              cases hidx
              rfl
            subst hi
            rw [List.getElem?_cons_succ] at hget
            rw [List.set_cons_succ]
            simp [replaceFirstMap, hx, ih j y h hget]

/-- Characterization of one batch closure in terms of the first matching
session: locating by `findIndex` and writing back at that index is a
first-match replacement. -/
theorem rebenchStep_char (rb : List ExtractionResult → Except String (List BenchmarkResult))
    (apid : String) (now : Int) (acc : RebenchAcc) (t : String) :
    rebenchStep rb apid now acc t =
      match acc.sessions.find? (fun s => s.id = t) with
      | none => acc
      | some session =>
          match rb session.extractionResults with
          | Except.error e => { acc with firstErr := acc.firstErr.orElse (fun _ => some e) }
          | Except.ok newResults =>
              { sessions := replaceFirstMap (fun s => s.id = t)
                  (fun s => rebenchUpdate apid now newResults s) acc.sessions,
                store := putStore (rebenchUpdate apid now newResults session) acc.store,
                firstErr := acc.firstErr } := by
  unfold rebenchStep
  have hbridge := findIdx?_getElem?_eq_find? (fun s => decide (s.id = t)) acc.sessions
  cases hidx : acc.sessions.findIdx? (fun s => decide (s.id = t)) with
  | none =>
      rw [hidx] at hbridge
      rw [← hbridge]
  | some i =>
      rw [hidx] at hbridge
      dsimp only at hbridge ⊢
      cases hget : acc.sessions[i]? with
      | none =>
          rw [← hbridge, hget]
      | some y =>
          rw [← hbridge, hget]
          dsimp only
          cases hrb : rb y.extractionResults with
          | error e => rfl
          | ok newResults =>
              have hset := set_found_eq_replaceFirstMap (fun s => decide (s.id = t))
                (fun s => rebenchUpdate apid now newResults s) acc.sessions i y hidx hget
              dsimp only
              rw [hset]

theorem find?_replaceFirstMap_other {α : Type} (p q : α → Bool) (f : α → α)
    (h1 : ∀ x, p x = true → q x = false) (h2 : ∀ x, p x = true → q (f x) = false) :
    ∀ l, (replaceFirstMap p f l).find? q = l.find? q := by
  intro l
  induction l with
  | nil => rfl
  | cons x xs ih =>
      unfold replaceFirstMap
      by_cases hx : p x
      · rw [if_pos hx]
        rw [List.find?_cons, List.find?_cons, h1 x hx, h2 x hx]
      · rw [if_neg hx]
        rw [List.find?_cons, List.find?_cons]
        cases hq : q x
        · exact ih
        · rfl

theorem rebenchUpdate_id (apid : String) (now : Int) (r : List BenchmarkResult)
    (s : DealSession) : (rebenchUpdate apid now r s).id = s.id := rfl

theorem rebenchUpdate_extraction (apid : String) (now : Int) (r : List BenchmarkResult)
    (s : DealSession) : (rebenchUpdate apid now r s).extractionResults = s.extractionResults :=
  rfl

/-- A closure for id `t` does not move the session entry found for a
different id `k`. -/
theorem rebenchStep_find_other (rb : List ExtractionResult → Except String (List BenchmarkResult))
    (apid : String) (now : Int) (acc : RebenchAcc) (t k : String) (hk : ¬ t = k) :
    (rebenchStep rb apid now acc t).sessions.find? (fun s => s.id = k) =
      acc.sessions.find? (fun s => s.id = k) := by
  rw [rebenchStep_char]
  cases hf : acc.sessions.find? (fun s => s.id = t) with
  | none => rfl
  | some session =>
      dsimp only
      cases hrb : rb session.extractionResults with
      | error e => rfl
      | ok newResults =>
          dsimp only
          apply find?_replaceFirstMap_other
          · intro x hx
            simp only [decide_eq_true_eq] at hx
            simp only [decide_eq_false_iff_not]
            intro hc
            exact hk (hx ▸ hc ▸ rfl)
          · intro x hx
            simp only [decide_eq_true_eq] at hx
            simp only [rebenchUpdate_id, decide_eq_false_iff_not]
            intro hc
            exact hk (hx ▸ hc ▸ rfl)

/-- A closure for id `t` does not touch the persisted record of a
different id `k`. -/
theorem rebenchStep_store_other (rb : List ExtractionResult → Except String (List BenchmarkResult))
    (apid : String) (now : Int) (acc : RebenchAcc) (t k : String) (hk : ¬ t = k) :
    lookupStore (rebenchStep rb apid now acc t).store k = lookupStore acc.store k := by
  rw [rebenchStep_char]
  cases hf : acc.sessions.find? (fun s => s.id = t) with
  | none => rfl
  | some session =>
      have hsid : session.id = t := by
        have := List.find?_some hf
        simpa using this
      dsimp only
      cases hrb : rb session.extractionResults with
      | error e => rfl
      | ok newResults =>
          dsimp only
          rw [lookupStore_putStore, if_neg]
          rw [rebenchUpdate_id, hsid]
          exact hk

/-- A rejection already recorded in the accumulator survives every later
closure. -/
theorem rebenchStep_firstErr_keeps (rb : List ExtractionResult → Except String (List BenchmarkResult))
    (apid : String) (now : Int) (acc : RebenchAcc) (t : String) (e : String)
    (h : acc.firstErr = some e) :
    (rebenchStep rb apid now acc t).firstErr = some e := by
  rw [rebenchStep_char]
  cases hf : acc.sessions.find? (fun s => s.id = t) with
  | none => exact h
  | some session =>
      dsimp only
      cases hrb : rb session.extractionResults with
      | error e2 =>
          dsimp only
          rw [h]
          rfl
      | ok newResults => exact h

/-- A closure whose session is found and whose rebenchmark call succeeds
persists the updated session under its id. -/
theorem rebenchStep_success (rb : List ExtractionResult → Except String (List BenchmarkResult))
    (apid : String) (now : Int) (acc : RebenchAcc) (sid : String) (s : DealSession)
    (r : List BenchmarkResult)
    (hf : acc.sessions.find? (fun x => x.id = sid) = some s)
    (hrb : rb s.extractionResults = Except.ok r) :
    lookupStore (rebenchStep rb apid now acc sid).store sid =
      some (rebenchUpdate apid now r s) := by
  rw [rebenchStep_char, hf]
  dsimp only
  rw [hrb]
  dsimp only
  rw [lookupStore_putStore, if_pos]
  rw [rebenchUpdate_id]
  have := List.find?_some hf
  simpa using this

/-- A closure whose session is found and whose rebenchmark call fails
leaves some rejection recorded. -/
theorem rebenchStep_error_sets (rb : List ExtractionResult → Except String (List BenchmarkResult))
    (apid : String) (now : Int) (acc : RebenchAcc) (sid : String) (s : DealSession)
    (e : String)
    (hf : acc.sessions.find? (fun x => x.id = sid) = some s)
    (hrb : rb s.extractionResults = Except.error e) :
    ∃ e2, (rebenchStep rb apid now acc sid).firstErr = some e2 := by
  rw [rebenchStep_char, hf]
  dsimp only
  rw [hrb]
  dsimp only
  cases h : acc.firstErr with
  | none => exact ⟨e, rfl⟩
  | some e0 => exact ⟨e0, rfl⟩

theorem fold_preserves_find (rb : List ExtractionResult → Except String (List BenchmarkResult))
    (apid : String) (now : Int) (sid : String) (s : DealSession) :
    ∀ (l : List String) (acc : RebenchAcc), sid ∉ l →
      acc.sessions.find? (fun x => x.id = sid) = some s →
      ((l.foldl (rebenchStep rb apid now) acc).sessions.find? (fun x => x.id = sid)) = some s := by
  intro l
  induction l with
  | nil =>
      intro acc _ h
      exact h
  | cons t l ih =>
      intro acc hnot h
      rw [List.foldl_cons]
      have ht : ¬ t = sid := fun hc => hnot (by rw [hc]; exact List.mem_cons_self sid l)
      refine ih (rebenchStep rb apid now acc t) (fun hc => hnot (List.mem_cons_of_mem t hc)) ?_
      rw [rebenchStep_find_other rb apid now acc t sid ht]
      exact h

theorem fold_preserves_store (rb : List ExtractionResult → Except String (List BenchmarkResult))
    (apid : String) (now : Int) (sid : String) :
    ∀ (l : List String) (acc : RebenchAcc), sid ∉ l →
      lookupStore ((l.foldl (rebenchStep rb apid now) acc)).store sid =
        lookupStore acc.store sid := by
  intro l
  induction l with
  | nil =>
      intro acc _
      rfl
  | cons t l ih =>
      intro acc hnot
      rw [List.foldl_cons]
      have ht : ¬ t = sid := fun hc => hnot (by rw [hc]; exact List.mem_cons_self sid l)
      rw [ih (rebenchStep rb apid now acc t) (fun hc => hnot (List.mem_cons_of_mem t hc))]
      exact rebenchStep_store_other rb apid now acc t sid ht

theorem fold_firstErr_keeps (rb : List ExtractionResult → Except String (List BenchmarkResult))
    (apid : String) (now : Int) (e : String) :
    ∀ (l : List String) (acc : RebenchAcc), acc.firstErr = some e →
      (l.foldl (rebenchStep rb apid now) acc).firstErr = some e := by
  intro l
  induction l with
  | nil =>
      intro acc h
      exact h
  | cons t l ih =>
      intro acc h
      rw [List.foldl_cons]
      exact ih (rebenchStep rb apid now acc t) (rebenchStep_firstErr_keeps rb apid now acc t e h)

theorem handleRebenchmarkSessions_store_eq
    (rb : List ExtractionResult → Except String (List BenchmarkResult))
    (apid : String) (now : Int) (ids : List String) (sessions : List DealSession) (st : Store) :
    (handleRebenchmarkSessions rb apid now ids sessions st).store =
      (ids.foldl (rebenchStep rb apid now) ⟨sessions, st, none⟩).store := by
  unfold handleRebenchmarkSessions
  dsimp only
  cases (ids.foldl (rebenchStep rb apid now) ⟨sessions, st, none⟩).firstErr <;> rfl

theorem handleRebenchmarkSessions_result_of_err
    (rb : List ExtractionResult → Except String (List BenchmarkResult))
    (apid : String) (now : Int) (ids : List String) (sessions : List DealSession) (st : Store)
    (e : String)
    (h : (ids.foldl (rebenchStep rb apid now) ⟨sessions, st, none⟩).firstErr = some e) :
    (handleRebenchmarkSessions rb apid now ids sessions st).result = Except.error e := by
  unfold handleRebenchmarkSessions
  dsimp only
  rw [h]

/-- C9 amended: in a batch rebenchmark against the active profile, a
failure of the rebenchmark call for one session does not prevent any other
session whose call succeeds from having its benchmark entry for the target
profile updated and persisted; when some session's call fails, the caller's
awaited promise rejects with the first failure's error — but that value
does not identify which session ids failed. -/
theorem handleRebenchmarkSessions_failure_isolation
    (rb : List ExtractionResult → Except String (List BenchmarkResult))
    (apid : String) (now : Int) (ids : List String)
    (sessions : List DealSession) (st : Store)
    (hids : ids.Nodup) :
    (∀ sid s r, sid ∈ ids →
        sessions.find? (fun x => x.id = sid) = some s →
        rb s.extractionResults = Except.ok r →
        lookupStore (handleRebenchmarkSessions rb apid now ids sessions st).store sid =
          some (rebenchUpdate apid now r s)) ∧
    (∀ sid s e, sid ∈ ids →
        sessions.find? (fun x => x.id = sid) = some s →
        rb s.extractionResults = Except.error e →
        ∃ e2, (handleRebenchmarkSessions rb apid now ids sessions st).result =
          Except.error e2) := by
  constructor
  · intro sid s r hmem hfind hok
    obtain ⟨l1, l2, rfl⟩ := List.append_of_mem hmem
    have hnd := List.nodup_append.mp hids
    have h2 : sid ∉ l2 := (List.nodup_cons.mp hnd.2.1).1
    have h1 : sid ∉ l1 := fun hc => hnd.2.2 hc (List.mem_cons_self sid l2)
    rw [handleRebenchmarkSessions_store_eq, List.foldl_append, List.foldl_cons]
    rw [fold_preserves_store rb apid now sid l2 _ h2]
    exact rebenchStep_success rb apid now _ sid s r
      (fold_preserves_find rb apid now sid s l1 ⟨sessions, st, none⟩ h1 hfind) hok
  · intro sid s e hmem hfind herr
    obtain ⟨l1, l2, rfl⟩ := List.append_of_mem hmem
    have hnd := List.nodup_append.mp hids
    have h1 : sid ∉ l1 := fun hc => hnd.2.2 hc (List.mem_cons_self sid l2)
    obtain ⟨e2, he2⟩ := rebenchStep_error_sets rb apid now
      (l1.foldl (rebenchStep rb apid now) ⟨sessions, st, none⟩) sid s e
      (fold_preserves_find rb apid now sid s l1 ⟨sessions, st, none⟩ h1 hfind) herr
    refine ⟨e2, handleRebenchmarkSessions_result_of_err rb apid now _ sessions st e2 ?_⟩
    rw [List.foldl_append, List.foldl_cons]
    exact fold_firstErr_keeps rb apid now e2 l2 _ he2

def extrA : List ExtractionResult :=
  [{ term := "T", value := "A", sourceSection := "s", evidence := "e", confidence := "High" }]

def extrB : List ExtractionResult :=
  [{ term := "T", value := "B", sourceSection := "s", evidence := "e", confidence := "High" }]

def extrC : List ExtractionResult :=
  [{ term := "T", value := "C", sourceSection := "s", evidence := "e", confidence := "High" }]

def sessA : DealSession :=
  { id := "a", borrowerName := "A", file := fileW, extractionResults := extrA,
    benchmarkResults := [], webFinancials := none, chatHistory := [], lastModified := 0 }

def sessB : DealSession :=
  { id := "b", borrowerName := "B", file := fileW, extractionResults := extrB,
    benchmarkResults := [], webFinancials := none, chatHistory := [], lastModified := 0 }

def sessC : DealSession :=
  { id := "c", borrowerName := "C", file := fileW, extractionResults := extrC,
    benchmarkResults := [], webFinancials := none, chatHistory := [], lastModified := 0 }

def rbFailA : List ExtractionResult → Except String (List BenchmarkResult) := fun l =>
  if l = extrA then Except.error "LLM error" else Except.ok []

def rbFailB : List ExtractionResult → Except String (List BenchmarkResult) := fun l =>
  if l = extrB then Except.error "LLM error" else Except.ok []

def rbFailC : List ExtractionResult → Except String (List BenchmarkResult) := fun l =>
  if l = extrC then Except.error "LLM error" else Except.ok []

/-- Counterexample for C9 as stated: the caller receives no indication of
which session ids failed. Over the same three-session batch, a run whose
rebenchmark call fails exactly on session `a` and a run failing exactly on
session `c` reject with identical caller-visible values. -/
theorem handleRebenchmarkSessions_no_failed_ids_counterexample :
    rbFailA sessA.extractionResults = Except.error "LLM error" ∧
    rbFailA sessC.extractionResults = Except.ok [] ∧
    rbFailC sessC.extractionResults = Except.error "LLM error" ∧
    rbFailC sessA.extractionResults = Except.ok [] ∧
    (handleRebenchmarkSessions rbFailA "p" 7 ["a", "b", "c"] [sessA, sessB, sessC] []).result =
      (handleRebenchmarkSessions rbFailC "p" 7 ["a", "b", "c"] [sessA, sessB, sessC] []).result :=
  ⟨rfl, rfl, rfl, rfl, rfl⟩

/-- Witness for the amended C9: a concrete three-session batch whose middle
session fails; the two other sessions are still updated and persisted, and
the call rejects. -/
theorem handleRebenchmarkSessions_failure_isolation_witness :
    (["a", "b", "c"] : List String).Nodup ∧
    lookupStore
      (handleRebenchmarkSessions rbFailB "p" 7 ["a", "b", "c"] [sessA, sessB, sessC] []).store
      "a" = some (rebenchUpdate "p" 7 [] sessA) ∧
    lookupStore
      (handleRebenchmarkSessions rbFailB "p" 7 ["a", "b", "c"] [sessA, sessB, sessC] []).store
      "c" = some (rebenchUpdate "p" 7 [] sessC) ∧
    (∃ e2, (handleRebenchmarkSessions rbFailB "p" 7 ["a", "b", "c"]
        [sessA, sessB, sessC] []).result = Except.error e2) :=
  ⟨by decide,
   (handleRebenchmarkSessions_failure_isolation rbFailB "p" 7 ["a", "b", "c"]
      [sessA, sessB, sessC] [] (by decide)).1 "a" sessA [] (by decide) rfl rfl,
   (handleRebenchmarkSessions_failure_isolation rbFailB "p" 7 ["a", "b", "c"]
      [sessA, sessB, sessC] [] (by decide)).1 "c" sessC [] (by decide) rfl rfl,
   (handleRebenchmarkSessions_failure_isolation rbFailB "p" 7 ["a", "b", "c"]
      [sessA, sessB, sessC] [] (by decide)).2 "b" sessB "LLM error" (by decide) rfl rfl⟩

end CreditInsight
